import Mathlib

/-!
Shallow embedding of the chat client core (src/index.tsx and the Gemini
service module): the Message data model, the history reconstruction passed
to the AI client, the streaming-response accumulator of handleSubmit, the
localStorage persistence helpers, and the submit guard.
-/

/-- Message role: the `role: "user" | "model"` field of ChatMessage. -/
inductive Role
  | user
  | model
deriving DecidableEq, Repr

/-- ChatMessage from src/types: `{ role, text?: string, imageUrl?: string }`.
`none` models an absent (undefined or null) field. -/
structure ChatMessage where
  role : Role
  text : Option String := none
  imageUrl : Option String := none
deriving DecidableEq, Repr

/-- JavaScript truthiness of `msg.text`: present and non-empty. -/
def hasText (m : ChatMessage) : Bool :=
  m.text.getD "" ≠ ""

/-- One entry of the conversation context handed to the AI client:
`{ role, parts: [{ text }] }`. -/
structure HistoryEntry where
  role : Role
  parts : List String
deriving DecidableEq, Repr

/-- The map step of the history reconstruction:
`{ role: msg.role, parts: [{ text: msg.text! }] }`. -/
def toHistoryEntry (m : ChatMessage) : HistoryEntry :=
  { role := m.role, parts := [m.text.getD ""] }

/-- History Reconstructor (useEffect in ChatComponent, src/index.tsx lines
168 to 178): `messages.filter(msg => msg.text).map(msg => ({role, parts}))`. -/
def buildHistory (messages : List ChatMessage) : List HistoryEntry :=
  (messages.filter hasText).map toHistoryEntry

/- Persistence (src/index.tsx lines 17 to 36). -/

/-- Character-level test that `cs` begins with `pat`, written by structural
recursion so that it evaluates by kernel reduction. -/
def leadsWith : List Char → List Char → Bool
  | [], _ => true
  | _ :: _, [] => false
  | p :: ps, c :: cs => p == c && leadsWith ps cs

/-- The check that `msg.imageUrl` begins with `blob:`, marking a transient
local object reference produced by URL.createObjectURL. -/
def isTransientRef (u : String) : Bool :=
  leadsWith "blob:".data u.data

/-- The map step of saveChatHistory: a message whose imageUrl starts with
`blob:` has that field replaced by the empty string. -/
def sanitizeMessage (m : ChatMessage) : ChatMessage :=
  match m.imageUrl with
  | some u => if isTransientRef u then { m with imageUrl := some "" } else m
  | none => m

/-- A value stored in localStorage under a history key: the JSON either
deserializes back to a message list or is malformed (JSON.parse throws). -/
inductive StoredValue
  | wellFormed (msgs : List ChatMessage)
  | malformed

/-- localStorage, restricted to the history keys: account identifier to
stored value, `none` when no entry exists. -/
def Store := String → Option StoredValue

/-- saveChatHistory (src/index.tsx lines 17 to 26): blank transient image
references, serialize, store under the account key. -/
def saveChatHistory (uid : String) (messages : List ChatMessage) (store : Store) : Store :=
  fun k => if k = uid then some (StoredValue.wellFormed (messages.map sanitizeMessage)) else store k

/-- loadChatHistory (src/index.tsx lines 28 to 36): parse the stored entry;
a missing entry gives `[]`, and a JSON.parse failure is caught and gives `[]`. -/
def loadChatHistory (uid : String) (store : Store) : List ChatMessage :=
  match store uid with
  | some (StoredValue.wellFormed msgs) => msgs
  | some StoredValue.malformed => []
  | none => []

/- Stream Accumulator (handleSubmit, src/index.tsx lines 273 to 297). -/

/-- A freshly appended model message with role model and the given text. -/
def mkModelMsg (t : String) : ChatMessage :=
  { role := Role.model, text := some t }

/-- The loop state of handleSubmit: the messages list, the accumulator
`modelResponse`, and the `firstChunk` flag. -/
structure StreamState where
  messages : List ChatMessage
  modelResponse : String
  firstChunk : Bool
deriving DecidableEq, Repr

/-- Replacement of the text of the last message, the assignment
`newMessages[newMessages.length - 1].text = modelResponse`. The code only
runs this after a message has been appended, so the list is never empty
there; on `[]` the source would throw. -/
def setLastText (msgs : List ChatMessage) (t : String) : List ChatMessage :=
  msgs.dropLast ++ (match msgs.getLast? with
    | some m => [{ m with text := some t }]
    | none => [])

/-- One iteration of `for await (const chunk of stream)`: an empty or absent
chunk text is skipped; otherwise the accumulator grows and the new value is
either appended as a fresh model message (first chunk) or written into the
last message. -/
def processChunk (st : StreamState) (chunkText : String) : StreamState :=
  if chunkText = "" then st
  else
    let resp := st.modelResponse ++ chunkText
    if st.firstChunk then
      { messages := st.messages ++ [mkModelMsg resp], modelResponse := resp, firstChunk := false }
    else
      { messages := setLastText st.messages resp, modelResponse := resp, firstChunk := false }

/-- The whole fragment loop, from the state at its entry: the accumulator
`modelResponse` empty and `firstChunk` set. -/
def streamFold (msgs : List ChatMessage) (chunks : List String) : StreamState :=
  chunks.foldl processChunk { messages := msgs, modelResponse := "", firstChunk := true }

/-- The fixed fallback text appended when no chunk ever carried text. -/
def fallbackText : String := "I\x27m sorry, I couldn\x27t generate a response."

/-- The apology text appended by the catch block. -/
def apologyText : String := "Sorry, something went wrong. Please try again."

/-- The accumulation phase of handleSubmit on a stream that completes
normally: run the loop, then append the fallback message if `firstChunk`
is still set (src/index.tsx lines 276 to 294). -/
def runStream (msgs : List ChatMessage) (chunks : List String) : List ChatMessage :=
  let st := streamFold msgs chunks
  if st.firstChunk then st.messages ++ [mkModelMsg fallbackText]
  else st.messages

/-- The accumulation phase on a stream that raises after delivering
`consumed` fragments: the loop stops where it was and the catch block
appends the single apology message (src/index.tsx lines 295 to 297);
nothing is retried. -/
def runStreamWithError (msgs : List ChatMessage) (consumed : List String) : List ChatMessage :=
  (streamFold msgs consumed).messages ++ [mkModelMsg apologyText]

/-- Concatenation of a fragment sequence, in arrival order. -/
def joinStr : List String → String
  | [] => ""
  | c :: cs => c ++ joinStr cs

/- Submit guard (handleSubmit entry, src/index.tsx lines 233 to 248). -/

/-- The ChatComponent state read by handleSubmit: `input`, `image` (the
selected file, opaque here), `imagePreview` (its object URL), `isLoading`,
and the message list. -/
structure ChatState where
  messages : List ChatMessage
  input : String
  image : Option String := none
  imagePreview : Option String := none
  isLoading : Bool := false
deriving Repr

/-- JavaScript String.prototype.trim: drop leading and trailing
whitespace. Written over the character list so that it evaluates by
kernel reduction. -/
def jsTrim (s : String) : String :=
  String.mk (((s.data.dropWhile Char.isWhitespace).reverse.dropWhile Char.isWhitespace).reverse)

/-- The synchronous head of handleSubmit:
`if ((!input.trim() && !image) || isLoading) return;` then append the user
message, clear the input and image state, and set `isLoading` before the
request is issued. The Bool reports whether a request to the AI client is
started. -/
def handleSubmitStart (s : ChatState) : ChatState × Bool :=
  if (jsTrim s.input = "" ∧ s.image = none) ∨ s.isLoading = true then (s, false)
  else
    ({ messages := s.messages ++ [{ role := Role.user, text := some s.input, imageUrl := s.imagePreview }],
       input := "", image := none, imagePreview := none, isLoading := true }, true)

/-- The per-message invariant of section 3 of the design note: at least one
of `text` or `imageUrl` is set to a non-empty value. -/
def msgNonEmpty (m : ChatMessage) : Bool :=
  m.text.getD "" ≠ "" || m.imageUrl.getD "" ≠ ""

/-- The invariant over a whole message list. -/
def listInvariant (msgs : List ChatMessage) : Bool :=
  msgs.all msgNonEmpty

/- Helper lemmas. -/

lemma setLastText_concat (xs : List ChatMessage) (m : ChatMessage) (t : String) :
    setLastText (xs ++ [m]) t = xs ++ [{ m with text := some t }] := by
  simp [setLastText, List.dropLast_concat, List.getLast?_concat]

lemma joinStr_eq_empty {cs : List String} (h : joinStr cs = "") : ∀ c ∈ cs, c = "" := by
  induction cs with
  | nil => simp
  | cons c cs ih =>
    have hd : (c ++ joinStr cs).data = ([] : List Char) := by
      rw [show c ++ joinStr cs = joinStr (c :: cs) from rfl, h]
    rw [String.data_append] at hd
    rcases List.append_eq_nil.mp hd with ⟨h1, h2⟩
    have hc : c = "" := String.ext h1
    have hcs : joinStr cs = "" := String.ext h2
    intro x hx
    rcases List.mem_cons.mp hx with rfl | hx
    · exact hc
    · exact ih hcs x hx

lemma foldl_processChunk_active (cs : List String) (msgs0 : List ChatMessage) (resp : String) :
    cs.foldl processChunk
      { messages := msgs0 ++ [mkModelMsg resp], modelResponse := resp, firstChunk := false } =
    { messages := msgs0 ++ [mkModelMsg (resp ++ joinStr cs)],
      modelResponse := resp ++ joinStr cs, firstChunk := false } := by
  induction cs generalizing resp with
  | nil => simp [joinStr]
  | cons c cs ih =>
    by_cases hc : c = ""
    · subst hc
      simp only [List.foldl_cons, processChunk, if_pos rfl, joinStr, String.empty_append]
      exact ih resp
    · simp only [List.foldl_cons, processChunk, if_neg hc, if_neg (Bool.false_ne_true), joinStr]
      rw [setLastText_concat]
      have hrec : { (mkModelMsg resp) with text := some (resp ++ c) } = mkModelMsg (resp ++ c) := rfl
      rw [hrec, ih (resp ++ c)]
      simp [String.append_assoc]

lemma streamFold_all_empty (msgs : List ChatMessage) (cs : List String)
    (h : ∀ c ∈ cs, c = "") :
    streamFold msgs cs = { messages := msgs, modelResponse := "", firstChunk := true } := by
  induction cs with
  | nil => rfl
  | cons c cs ih =>
    have hc : c = "" := h c (List.mem_cons_self c cs)
    subst hc
    simp only [streamFold, List.foldl_cons, processChunk, if_pos rfl]
    exact ih (fun x hx => h x (List.mem_cons_of_mem _ hx))

lemma streamFold_spec (msgs : List ChatMessage) (cs : List String)
    (h : ∃ c ∈ cs, c ≠ "") :
    streamFold msgs cs =
      { messages := msgs ++ [mkModelMsg (joinStr cs)],
        modelResponse := joinStr cs, firstChunk := false } := by
  induction cs with
  | nil => simp at h
  | cons c cs ih =>
    by_cases hc : c = ""
    · subst hc
      have h2 : ∃ x ∈ cs, x ≠ "" := by
        rcases h with ⟨x, hx, hne⟩
        rcases List.mem_cons.mp hx with rfl | hx
        · exact absurd rfl hne
        · exact ⟨x, hx, hne⟩
      simp only [streamFold, List.foldl_cons, processChunk, if_pos rfl, joinStr,
        String.empty_append]
      exact ih h2
    · simp only [streamFold, List.foldl_cons, processChunk, if_neg hc, if_pos rfl, joinStr]
      rw [String.empty_append]
      exact foldl_processChunk_active cs msgs c

lemma listInvariant_append (a b : List ChatMessage) :
    listInvariant (a ++ b) = (listInvariant a && listInvariant b) :=
  List.all_append

lemma sanitizeMessage_role (m : ChatMessage) : (sanitizeMessage m).role = m.role := by
  unfold sanitizeMessage
  cases m.imageUrl with
  | none => rfl
  | some u =>
    by_cases h : isTransientRef u = true
    · simp [h]
    · simp [h]

lemma sanitizeMessage_text (m : ChatMessage) : (sanitizeMessage m).text = m.text := by
  unfold sanitizeMessage
  cases m.imageUrl with
  | none => rfl
  | some u =>
    by_cases h : isTransientRef u = true
    · simp [h]
    · simp [h]

lemma sanitizeMessage_imageUrl (m : ChatMessage) :
    (sanitizeMessage m).imageUrl = m.imageUrl.map (fun u => if isTransientRef u then "" else u) := by
  unfold sanitizeMessage
  cases hu : m.imageUrl with
  | none => simp [hu]
  | some u =>
    by_cases h : isTransientRef u = true
    · simp [h]
    · simp [h, hu]

lemma load_after_save (uid : String) (msgs : List ChatMessage) (store : Store) :
    loadChatHistory uid (saveChatHistory uid msgs store) = msgs.map sanitizeMessage := by
  simp [loadChatHistory, saveChatHistory]

/-- C1: the History Reconstructor keeps exactly the messages with present,
non-empty text, in order, maps each to its role and single text part, and
its output length equals the count of such messages and is at most the
input length. -/
theorem C1_history_reconstructor (msgs : List ChatMessage) :
    buildHistory msgs = (msgs.filter hasText).map toHistoryEntry ∧
    List.Sublist (msgs.filter hasText) msgs ∧
    (buildHistory msgs).length = msgs.countP hasText ∧
    (buildHistory msgs).length ≤ msgs.length := by
  refine ⟨rfl, List.filter_sublist msgs, ?_, ?_⟩
  · simp [buildHistory, (List.countP_eq_length_filter hasText msgs).symm]
  · calc (buildHistory msgs).length = (msgs.filter hasText).length := by simp [buildHistory]
    _ ≤ msgs.length := (List.filter_sublist msgs).length_le

/-- C2: the Stream Accumulator appends a model message at the first
non-empty fragment and, after any prefix containing a non-empty fragment,
the text of that appended last message is the concatenation of all
fragments received so far; on the fragments Hel, lo, there the
intermediate texts are Hel then Hello and the final text is Hello there. -/
theorem C2_stream_accumulates (msgs : List ChatMessage) (chunks : List String) (k : Nat)
    (h : ∃ c ∈ chunks.take k, c ≠ "") :
    (streamFold msgs (chunks.take k)).messages =
      msgs ++ [mkModelMsg (joinStr (chunks.take k))] ∧
    (streamFold msgs ["Hel"]).messages = msgs ++ [mkModelMsg "Hel"] ∧
    (streamFold msgs ["Hel", "lo"]).messages = msgs ++ [mkModelMsg "Hello"] ∧
    runStream msgs ["Hel", "lo", " there"] = msgs ++ [mkModelMsg "Hello there"] := by
  refine ⟨?_, ?_, ?_, ?_⟩
  · rw [streamFold_spec msgs (chunks.take k) h]
  · rw [streamFold_spec msgs ["Hel"] ⟨"Hel", by simp, by decide⟩]
    simp [show joinStr ["Hel"] = "Hel" from by decide]
  · rw [streamFold_spec msgs ["Hel", "lo"] ⟨"Hel", by simp, by decide⟩]
    simp [show joinStr ["Hel", "lo"] = "Hello" from by decide]
  · rw [runStream, streamFold_spec msgs ["Hel", "lo", " there"] ⟨"Hel", by simp, by decide⟩]
    simp [show joinStr ["Hel", "lo", " there"] = "Hello there" from by decide]

/-- Witness for C2 at a concrete prefix of the example fragments. -/
theorem C2_witness :
    (∃ c ∈ ["Hel", "lo", " there"].take 2, c ≠ "") ∧
    (streamFold [] (["Hel", "lo", " there"].take 2)).messages =
      [] ++ [mkModelMsg (joinStr (["Hel", "lo", " there"].take 2))] ∧
    (streamFold [] ["Hel"]).messages = [] ++ [mkModelMsg "Hel"] ∧
    (streamFold [] ["Hel", "lo"]).messages = [] ++ [mkModelMsg "Hello"] ∧
    runStream [] ["Hel", "lo", " there"] = [] ++ [mkModelMsg "Hello there"] :=
  ⟨⟨"Hel", by simp, by decide⟩, C2_stream_accumulates [] ["Hel", "lo", " there"] 2 ⟨"Hel", by simp, by decide⟩⟩

/-- C3: one run of the Stream Accumulator appends exactly one message at
the end of the list — never zero, never more — and every message already
in the list is unchanged and keeps its position. -/
theorem C3_appends_exactly_one (msgs : List ChatMessage) (chunks : List String) :
    (∃ m, runStream msgs chunks = msgs ++ [m]) ∧
    (runStream msgs chunks).length = msgs.length + 1 ∧
    (runStream msgs chunks).take msgs.length = msgs := by
  by_cases h : ∃ c ∈ chunks, c ≠ ""
  · have hs := streamFold_spec msgs chunks h
    refine ⟨⟨mkModelMsg (joinStr chunks), ?_⟩, ?_, ?_⟩ <;>
      simp [runStream, hs, List.take_left]
  · push_neg at h
    have hs := streamFold_all_empty msgs chunks h
    refine ⟨⟨mkModelMsg fallbackText, ?_⟩, ?_, ?_⟩ <;>
      simp [runStream, hs, List.take_left]

/-- C4: a fragment sequence that completes with no non-empty fragment
(the empty sequence included) makes the accumulator append exactly one
fallback model message with the fixed fallback text. -/
theorem C4_fallback_message (msgs : List ChatMessage) (chunks : List String)
    (h : ∀ c ∈ chunks, c = "") :
    runStream msgs chunks =
      msgs ++ [{ role := Role.model,
                 text := some "I\x27m sorry, I couldn\x27t generate a response.",
                 imageUrl := none }] := by
  have hs := streamFold_all_empty msgs chunks h
  simp [runStream, hs, mkModelMsg, fallbackText]

/-- Witness for C4 at the empty fragment sequence. -/
theorem C4_witness :
    (∀ c ∈ ([] : List String), c = "") ∧
    runStream [] [] =
      [] ++ [{ role := Role.model,
               text := some "I\x27m sorry, I couldn\x27t generate a response.",
               imageUrl := none }] :=
  ⟨by simp, C4_fallback_message [] [] (by simp)⟩

/-- C5: when the stream raises after some consumed prefix, accumulation
stops there and exactly one apology message is appended at the end: the
result is the prior list plus the apology alone (nothing consumed useful)
or plus the partial model message and the apology; the prior messages are
untouched and no second attempt is made. -/
theorem C5_error_single_apology (msgs : List ChatMessage) (consumed : List String) :
    (runStreamWithError msgs consumed).getLast? = some (mkModelMsg apologyText) ∧
    (runStreamWithError msgs consumed).take msgs.length = msgs ∧
    (runStreamWithError msgs consumed = msgs ++ [mkModelMsg apologyText] ∨
     runStreamWithError msgs consumed =
       msgs ++ [mkModelMsg (joinStr consumed), mkModelMsg apologyText]) := by
  by_cases h : ∃ c ∈ consumed, c ≠ ""
  · have hs := streamFold_spec msgs consumed h
    refine ⟨?_, ?_, Or.inr ?_⟩ <;>
      simp [runStreamWithError, hs, List.getLast?_concat, List.take_left]
  · push_neg at h
    have hs := streamFold_all_empty msgs consumed h
    refine ⟨?_, ?_, Or.inl ?_⟩ <;>
      simp [runStreamWithError, hs, List.getLast?_concat, List.take_left]

/-- C6: saving a message list and loading it under the same account key
returns the same list in the same order, with each message keeping its
role and text, and with any transient (blob) image reference replaced by
the empty string while other image references are kept as they are. -/
theorem C6_roundtrip (uid : String) (msgs : List ChatMessage) (store : Store) :
    loadChatHistory uid (saveChatHistory uid msgs store) = msgs.map sanitizeMessage ∧
    (loadChatHistory uid (saveChatHistory uid msgs store)).length = msgs.length ∧
    ∀ m : ChatMessage,
      (sanitizeMessage m).role = m.role ∧
      (sanitizeMessage m).text = m.text ∧
      (sanitizeMessage m).imageUrl =
        m.imageUrl.map (fun u => if isTransientRef u then "" else u) := by
  refine ⟨load_after_save uid msgs store, ?_, fun m =>
    ⟨sanitizeMessage_role m, sanitizeMessage_text m, sanitizeMessage_imageUrl m⟩⟩
  rw [load_after_save uid msgs store, List.length_map]

/-- C7: loading is total and returns the stored list when a well-formed
entry exists, and the empty list when no entry exists or the stored value
fails to deserialize; the failing branches return instead of raising. -/
theorem C7_load_best_effort (uid : String) (store : Store) :
    (store uid = none → loadChatHistory uid store = []) ∧
    (store uid = some StoredValue.malformed → loadChatHistory uid store = []) ∧
    (∀ msgs, store uid = some (StoredValue.wellFormed msgs) → loadChatHistory uid store = msgs) := by
  refine ⟨fun h => ?_, fun h => ?_, fun msgs h => ?_⟩ <;> simp [loadChatHistory, h]

/-- Witness for C7 on the three kinds of stored entry. -/
theorem C7_witness :
    loadChatHistory "u" (fun _ => none) = [] ∧
    loadChatHistory "u" (fun _ => some StoredValue.malformed) = [] ∧
    loadChatHistory "u" (fun _ => some (StoredValue.wellFormed [])) = [] :=
  ⟨(C7_load_best_effort "u" (fun _ => none)).1 rfl,
   (C7_load_best_effort "u" (fun _ => some StoredValue.malformed)).2.1 rfl,
   (C7_load_best_effort "u" (fun _ => some (StoredValue.wellFormed []))).2.2 [] rfl⟩

/-- C9 as stated is false: there is no state with a stream in flight in
which a further submit appends a message or starts a request, because the
guard of handleSubmit returns early whenever isLoading is set. -/
theorem C9_counterexample :
    ¬ ∃ s : ChatState, s.isLoading = true ∧ handleSubmitStart s ≠ (s, false) := by
  rintro ⟨s, hload, hne⟩
  apply hne
  unfold handleSubmitStart
  rw [if_pos (Or.inr hload)]

/-- C9 amended: while a stream from a prior submit is in flight (the
loading flag is set), any further submit event is rejected as a no-op:
the state is unchanged and no request is started. -/
theorem C9_inflight_submit_noop (s : ChatState) (h : s.isLoading = true) :
    handleSubmitStart s = (s, false) := by
  unfold handleSubmitStart
  rw [if_pos (Or.inr h)]

/-- Witness for the amended C9 on a loading state with non-blank input. -/
theorem C9_witness :
    ({ messages := [], input := "hi", isLoading := true : ChatState }).isLoading = true ∧
    handleSubmitStart { messages := [], input := "hi", isLoading := true } =
      ({ messages := [], input := "hi", isLoading := true }, false) :=
  ⟨rfl, C9_inflight_submit_noop { messages := [], input := "hi", isLoading := true } rfl⟩

/-- C10: a submit whose input trims to the empty string and with no image
selected is a complete no-op: the state (message list included) is
unchanged and no request to the AI client is started. -/
theorem C10_blank_submit_noop (s : ChatState)
    (h1 : jsTrim s.input = "") (h2 : s.image = none) :
    handleSubmitStart s = (s, false) := by
  unfold handleSubmitStart
  rw [if_pos (Or.inl ⟨h1, h2⟩)]

/-- Witness for C10 on a whitespace-only input with no image. -/
theorem C10_witness :
    jsTrim ({ messages := [], input := "   " : ChatState }).input = "" ∧
    ({ messages := [], input := "   " : ChatState }).image = none ∧
    handleSubmitStart { messages := [], input := "   " } =
      ({ messages := [], input := "   " }, false) :=
  ⟨by decide, rfl, C10_blank_submit_noop { messages := [], input := "   " } (by decide) rfl⟩

/-- C8 as stated is false: a user message whose only content is a
transient blob image reference satisfies the invariant, yet after save
and load under the same account both its fields are empty. -/
theorem C8_counterexample :
    listInvariant [{ role := Role.user, text := some "", imageUrl := some "blob:demo" }] = true ∧
    listInvariant (loadChatHistory "u" (saveChatHistory "u"
      [{ role := Role.user, text := some "", imageUrl := some "blob:demo" }]
      (fun _ => none))) = false := by
  constructor
  · decide
  · decide

/-- C8 amended: every message appended by user submit or by stream
accumulation has text or image non-empty, so those operations preserve the
invariant; save followed by load preserves it only on lists in which every
message has non-empty text or a non-transient image reference — a message
whose only content is a transient blob reference comes back empty. -/
theorem C8_invariant_preservation (s : ChatState) (chunks : List String)
    (uid : String) (store : Store)
    (hinv : listInvariant s.messages = true)
    (hprev : s.image.isSome = true → s.imagePreview.getD "" ≠ "")
    (hsafe : ∀ m ∈ s.messages,
      m.text.getD "" ≠ "" ∨ isTransientRef (m.imageUrl.getD "") = false) :
    listInvariant (handleSubmitStart s).1.messages = true ∧
    listInvariant (runStream s.messages chunks) = true ∧
    listInvariant (loadChatHistory uid (saveChatHistory uid s.messages store)) = true := by
  refine ⟨?_, ?_, ?_⟩
  · by_cases hg : (jsTrim s.input = "" ∧ s.image = none) ∨ s.isLoading = true
    · unfold handleSubmitStart
      rw [if_pos hg]
      exact hinv
    · unfold handleSubmitStart
      rw [if_neg hg]
      simp only [listInvariant_append, hinv, Bool.true_and]
      rw [not_or] at hg
      rcases not_and_or.mp hg.1 with htrim | himg
      · have htext : s.input ≠ "" := by
          intro he
          exact htrim (by rw [he]; rfl)
        simp [listInvariant, msgNonEmpty, htext]
      · have hsome : s.image.isSome = true := by
          cases hi : s.image with
          | none => exact absurd hi himg
          | some v => rfl
        have hurl := hprev hsome
        simp [listInvariant, msgNonEmpty, hurl]
  · by_cases h : ∃ c ∈ chunks, c ≠ ""
    · have hs := streamFold_spec s.messages chunks h
      have hjoin : joinStr chunks ≠ "" := by
        intro he
        rcases h with ⟨c, hc, hne⟩
        exact hne (joinStr_eq_empty he c hc)
      have hgoal : runStream s.messages chunks = s.messages ++ [mkModelMsg (joinStr chunks)] := by
        simp [runStream, hs]
      rw [hgoal, listInvariant_append, hinv]
      simp [listInvariant, msgNonEmpty, mkModelMsg, hjoin]
    · push_neg at h
      have hs := streamFold_all_empty s.messages chunks h
      have hfb : fallbackText ≠ "" := by decide
      have hgoal : runStream s.messages chunks = s.messages ++ [mkModelMsg fallbackText] := by
        simp [runStream, hs]
      rw [hgoal, listInvariant_append, hinv]
      simp [listInvariant, msgNonEmpty, mkModelMsg, hfb]
  · rw [load_after_save]
    simp only [listInvariant, List.all_map, List.all_eq_true]
    intro m hm
    have hnm : msgNonEmpty m = true := by
      have := (List.all_eq_true.mp hinv) m hm
      exact this
    rcases hsafe m hm with htext | hsafeurl
    · have : (sanitizeMessage m).text.getD "" ≠ "" := by
        rw [sanitizeMessage_text]
        exact htext
      simp [msgNonEmpty, Function.comp, this]
    · have hid : sanitizeMessage m = m := by
        unfold sanitizeMessage
        cases hu : m.imageUrl with
        | none => rfl
        | some u =>
          have : isTransientRef u = false := by
            rw [hu] at hsafeurl
            exact hsafeurl
          simp [this]
      simp [Function.comp, hid, hnm]

/-- Witness for the amended C8 on a greeting message, a submit of hi, one
response fragment, and an empty store. -/
theorem C8_witness :
    listInvariant
        ({ messages := [{ role := Role.model, text := some "Hello", imageUrl := none }],
           input := "hi" : ChatState }).messages = true ∧
    (({ messages := [{ role := Role.model, text := some "Hello", imageUrl := none }],
        input := "hi" : ChatState }).image.isSome = true →
      ({ messages := [{ role := Role.model, text := some "Hello", imageUrl := none }],
         input := "hi" : ChatState }).imagePreview.getD "" ≠ "") ∧
    (∀ m ∈ ({ messages := [{ role := Role.model, text := some "Hello", imageUrl := none }],
              input := "hi" : ChatState }).messages,
      m.text.getD "" ≠ "" ∨ isTransientRef (m.imageUrl.getD "") = false) ∧
    (listInvariant
        (handleSubmitStart
          { messages := [{ role := Role.model, text := some "Hello", imageUrl := none }],
            input := "hi" }).1.messages = true ∧
     listInvariant
        (runStream
          ({ messages := [{ role := Role.model, text := some "Hello", imageUrl := none }],
             input := "hi" : ChatState }).messages ["ok"]) = true ∧
     listInvariant
        (loadChatHistory "u"
          (saveChatHistory "u"
            ({ messages := [{ role := Role.model, text := some "Hello", imageUrl := none }],
               input := "hi" : ChatState }).messages (fun _ => none))) = true) :=
  ⟨by decide, by decide, by decide,
   C8_invariant_preservation
     { messages := [{ role := Role.model, text := some "Hello", imageUrl := none }],
       input := "hi" }
     ["ok"] "u" (fun _ => none) (by decide) (by decide) (by decide)⟩
